import Mathlib

/-!
Verification development for the NASA-fire-data repository.

The Python sources under `src/` are shallowly embedded below:
`src/fire_point.py` (the `FirePoint` value object and its date/time
parsing and closeness predicates), `src/main.py` (filtering, the
top-point selection via `DataFrame.sort_values(...).tail(n)`, the
clustering loop, and the CSV output), and `src/utils.py`
(`conditional_open` and `ignore_pandas_warning`).

Machine floats of the Python code are modelled as exact rationals `ℚ`;
Python's arbitrary-precision ints as `ℕ`/`ℤ`.  The geodesic distance
computed by the external `geopy` library is kept as an explicit function
parameter `gdist` of the predicates that use it.  `DataFrame.sort_values`
with its default `kind='quicksort'` dispatches to numpy's introsort-style
argsort (`aquicksort` in numpy's `npysort/quicksort.c.src`,
`SMALL_QUICKSORT = 15`, with the insertion-sort small case, the
median-of-three partition, the explicit two-segment stack, the shared
decrementing depth limit and the heapsort fallback); that algorithm is
embedded below as `npArgsort`, with the in-place loops rendered as pure
list-functional code.
-/

namespace NasaFire

/-! ## Python `datetime` arithmetic (proleptic Gregorian calendar)

`FirePoint.is_temporally_close_to` subtracts two `datetime.datetime`
values and takes `total_seconds()`.  The embedding maps a datetime to its
exact count of seconds on CPython's proleptic Gregorian ordinal scale,
following `datetime._days_before_year` / `_days_before_month` /
`toordinal`. -/

/-- CPython `datetime._is_leap(year)`. -/
def isLeap (y : ℕ) : Bool :=
  y % 4 == 0 && (y % 100 != 0 || y % 400 == 0)

/-- CPython `_DAYS_BEFORE_MONTH` table (index 0 is the unused `-1`
sentinel, modelled as 0 since month indices start at 1). -/
def daysBeforeMonthTable : List ℕ :=
  [0, 0, 31, 59, 90, 120, 151, 181, 212, 243, 273, 304, 334]

/-- CPython `datetime._days_before_month(year, month)`. -/
def daysBeforeMonth (y m : ℕ) : ℕ :=
  daysBeforeMonthTable.getD m 0 + (if 2 < m && isLeap y then 1 else 0)

/-- CPython `datetime._days_before_year(year)`:
`(y-1)*365 + (y-1)//4 - (y-1)//100 + (y-1)//400`. -/
def daysBeforeYear (y : ℕ) : ℕ :=
  (y - 1) * 365 + (y - 1) / 4 - (y - 1) / 100 + (y - 1) / 400

/-- A CPython `datetime.datetime` value with second/microsecond zero, as
built by `FirePoint.convert_to_datetime`. -/
structure PyDateTime where
  year : ℕ
  month : ℕ
  day : ℕ
  hour : ℕ
  minute : ℕ
deriving DecidableEq

/-- CPython `date.toordinal()`: day number on the proleptic Gregorian
scale, day 1 = 0001-01-01. -/
def PyDateTime.toOrdinal (dt : PyDateTime) : ℕ :=
  daysBeforeYear dt.year + daysBeforeMonth dt.year dt.month + dt.day

/-- The exact number of seconds from the epoch of the ordinal scale to a
datetime; differences of this quantity are what
`(a - b).total_seconds()` returns (exactly, for the integral-second
datetimes this program builds). -/
def PyDateTime.totalSeconds (dt : PyDateTime) : ℕ :=
  (dt.toOrdinal * 24 + dt.hour) * 3600 + dt.minute * 60

/-! ## Decimal-string arithmetic for `FirePoint.hour_from_utc_integer`

Python's `str(time)` for a non-negative int is its decimal digit string,
most significant digit first.  `digitsRevFuel` mirrors the little-endian
digit extraction (`Nat.digits 10`) with structural fuel so that concrete
instances reduce in the kernel; `pyStrDigits t` is the digit list of
`str(t)` in writing order. -/

/-- Little-endian base-10 digits of `t`, with fuel (`fuel ≥ t` suffices);
agrees with `Nat.digits 10 t` (proved below). -/
def digitsRevFuel : ℕ → ℕ → List ℕ
  | 0, _ => []
  | _ + 1, 0 => []
  | fuel + 1, t + 1 => (t + 1) % 10 :: digitsRevFuel fuel ((t + 1) / 10)

/-- The digit list of Python's `str(t)` for a non-negative int `t`, most
significant digit first (`str(0) = "0"`). -/
def pyStrDigits (t : ℕ) : List ℕ :=
  if t = 0 then [0] else (digitsRevFuel t t).reverse

/-- Python `int(digit string)`; the empty string raises `ValueError`,
modelled as `none`. -/
def pyIntOfDigits : List ℕ → Option ℕ
  | [] => none
  | ds => some (Nat.ofDigits 10 ds.reverse)

/-- Embeds `FirePoint.hour_from_utc_integer`:
`time_str[:len(time_str)-2]` parsed as int, or 0 on `ValueError`
(no digits left).  Python's slice `s[:n]` for `n ≤ 0` is empty, which
matches truncated `ℕ` subtraction in `List.take`. -/
def hour_from_utc_integer (time : ℕ) : ℕ :=
  match pyIntOfDigits ((pyStrDigits time).take ((pyStrDigits time).length - 2)) with
  | none => 0
  | some h => h

/-- The `minute = int(str(time)[-2:])` computation inside
`FirePoint.convert_to_datetime` (last two digit characters; Python's
`s[-2:]` on a 1-character string is that character). -/
def minute_from_utc_integer (time : ℕ) : ℕ :=
  (pyIntOfDigits ((pyStrDigits time).drop ((pyStrDigits time).length - 2))).getD 0

/-- Embeds `FirePoint.convert_to_datetime`: the `YYYY-MM-DD` day string is
modelled already split into its three integer components (the
`[int(d) for d in day.split('-')]` step); the UTC time integer is split
into hour and minute. -/
def convert_to_datetime (year month day : ℕ) (time : ℕ) : PyDateTime :=
  { year := year, month := month, day := day
    hour := hour_from_utc_integer time
    minute := minute_from_utc_integer time }

/-! ## The `FirePoint` value object (`src/fire_point.py`) -/

/-- A `geopy.Point`, as used here: a latitude/longitude pair in degrees. -/
structure Pt where
  latitude : ℚ
  longitude : ℚ
deriving DecidableEq

/-- The `instrument` column (`FirePoint.pixel_size` only has these keys;
any other value raises `KeyError` in `__init__`). -/
inductive Instrument where
  | MODIS : Instrument
  | VIIRS : Instrument
deriving DecidableEq

/-- Lookup `FirePoint.pixel_size[instrument]`, in kilometers. -/
def pixel_size : Instrument → ℚ
  | .MODIS => 1
  | .VIIRS => 3 / 8

/-- One row of NASA's dataset, with the columns `FirePoint` reads; the
`acq_date` string is modelled pre-split into year/month/day integers. -/
structure Row where
  acq_year : ℕ
  acq_month : ℕ
  acq_day : ℕ
  acq_time : ℕ
  latitude : ℚ
  longitude : ℚ
  instrument : Instrument
  frp : ℚ
deriving DecidableEq

/-- The `FirePoint` instance built by `FirePoint.__init__`. -/
structure FirePoint where
  frp : ℚ
  date : PyDateTime
  point : Pt
  instrument : Instrument
  radius : ℚ
deriving DecidableEq

/-- Embeds `FirePoint.from_dataset_row` / `FirePoint.__init__`. -/
def FirePoint.from_dataset_row (row : Row) : FirePoint :=
  { frp := row.frp
    date := convert_to_datetime row.acq_year row.acq_month row.acq_day row.acq_time
    point := { latitude := row.latitude, longitude := row.longitude }
    instrument := row.instrument
    radius := pixel_size row.instrument }

/-- Embeds `FirePoint.is_spatially_close_to`: the geodesic distance in km
between the two points (computed by the external `geopy` library, here
the parameter `gdist`) is strictly below `distance_delta`. -/
def FirePoint.is_spatially_close_to (gdist : Pt → Pt → ℚ) (self other : FirePoint)
    (distance_delta : ℚ) : Bool :=
  decide (gdist self.point other.point < distance_delta)

/-- Embeds `FirePoint.is_temporally_close_to`:
`abs(self.date - other.date).total_seconds() < time_delta * 3600 * 24`. -/
def FirePoint.is_temporally_close_to (self other : FirePoint) (time_delta : ℚ) : Bool :=
  decide ((|(self.date.totalSeconds : ℤ) - (other.date.totalSeconds : ℤ)| : ℤ)
    < time_delta * 3600 * 24)

/-- Embeds `FirePoint.is_neighbor_of`: spatially close AND temporally close. -/
def FirePoint.is_neighbor_of (gdist : Pt → Pt → ℚ) (self other : FirePoint)
    (time_delta distance_delta : ℚ) : Bool :=
  self.is_spatially_close_to gdist other distance_delta &&
    self.is_temporally_close_to other time_delta

/-! ## numpy's argsort (`np.argsort(kind='quicksort')`)

`pandas.DataFrame.sort_values(by=col)` (the default `kind='quicksort'`,
as called in `yield_top_points`) computes the row order with numpy's
`aquicksort`: an introsort on an index array `tosort` initialised to
`0..num-1`, comparing `v[tosort[i]]`.  The embedding below follows
numpy's `npysort/quicksort.c.src` and `heapsort.c.src` (templated
`aquicksort_@suff@` / `aheapsort_@suff@`, `SMALL_QUICKSORT = 15`,
`depth_limit = npy_get_msb(num) * 2`), with the in-place index array as
a `List ℕ` and the unbounded C loops given ample structural fuel. -/

/-- Reads `v[a[i]]`: the key at position `i` of the index array `a`. -/
def vAt (v : List ℚ) (a : List ℕ) (i : ℕ) : ℚ :=
  v.getD (a.getD i 0) 0

/-- Swap `INTP_SWAP(a[i], a[j])`. -/
def lswap (a : List ℕ) (i j : ℕ) : List ℕ :=
  (a.set i (a.getD j 0)).set j (a.getD i 0)

/-- Fueled `npy_get_msb(n)`: index of the most significant set bit (0 for 0). -/
def msbFuel : ℕ → ℕ → ℕ
  | 0, _ => 0
  | fuel + 1, n => if 2 ≤ n then msbFuel fuel (n / 2) + 1 else 0

/-- Computes `npy_get_msb` with adequate fuel. -/
def npyGetMsb (n : ℕ) : ℕ := msbFuel n n

/-- Scan `do ++pi; while (v[*pi] < vp)` — first position strictly after `pi`
whose key is not below the pivot. -/
def scanUp (v : List ℚ) (a : List ℕ) (vp : ℚ) : ℕ → ℕ → ℕ
  | 0, pi => pi + 1
  | fuel + 1, pi =>
    if vAt v a (pi + 1) < vp then scanUp v a vp fuel (pi + 1) else pi + 1

/-- Scan `do --pj; while (vp < v[*pj])` — first position strictly before `pj`
whose key is not above the pivot. -/
def scanDown (v : List ℚ) (a : List ℕ) (vp : ℚ) : ℕ → ℕ → ℕ
  | 0, pj => pj - 1
  | fuel + 1, pj =>
    if vp < vAt v a (pj - 1) then scanDown v a vp fuel (pj - 1) else pj - 1

/-- The Hoare-style swap loop of numpy's partition step; returns the
updated index array and the final `pi`.  `amp` is ample fuel for the
inner scans (any bound beyond the segment length). -/
def partLoop (v : List ℚ) (vp : ℚ) (amp : ℕ) : ℕ → List ℕ → ℕ → ℕ → List ℕ × ℕ
  | 0, a, pi, _ => (a, pi)
  | fuel + 1, a, pi, pj =>
    let pi' := scanUp v a vp amp pi
    let pj' := scanDown v a vp amp pj
    if pj' ≤ pi' then (a, pi')
    else partLoop v vp amp fuel (lswap a pi' pj') pi' pj'

/-- numpy's small-case insertion step: insert index `x` into the already
sorted prefix, shifting right exactly the entries whose key is strictly
greater than `v[x]` (so `x` lands after all equal keys). -/
def insertR (v : List ℚ) (x : ℕ) : List ℕ → List ℕ
  | [] => [x]
  | y :: ys => if v.getD x 0 < v.getD y 0 then x :: y :: ys else y :: insertR v x ys

/-- numpy's insertion sort of an index segment (the `pi = pl + 1 .. pr`
loop), rendered functionally: fold the segment left-to-right, inserting
each index into the sorted prefix. -/
def insertionList (v : List ℚ) (seg : List ℕ) : List ℕ :=
  seg.foldl (fun acc x => insertR v x acc) []

/-- Apply an in-place segment transformation to `a[pl..pr]` (inclusive). -/
def applySeg (f : List ℕ → List ℕ) (a : List ℕ) (pl pr : ℕ) : List ℕ :=
  a.take pl ++ f ((a.drop pl).take (pr + 1 - pl)) ++ a.drop (pr + 1)

/-- Insertion sort of the segment `a[pl..pr]`. -/
def insertionSeg (v : List ℚ) (a : List ℕ) (pl pr : ℕ) : List ℕ :=
  applySeg (insertionList v) a pl pr

/-- One-based read used by numpy's heapsort (`a = tosort - 1`). -/
def get1 (s : List ℕ) (k : ℕ) : ℕ := s.getD (k - 1) 0

/-- One-based write used by numpy's heapsort. -/
def set1 (s : List ℕ) (k x : ℕ) : List ℕ := s.set (k - 1) x

/-- The sift-down loop of numpy's `aheapsort` (`for (i = l, j = l*2; j <= n;)`). -/
def hsSift (v : List ℚ) (n : ℕ) (tmp : ℕ) : ℕ → List ℕ → ℕ → ℕ → List ℕ
  | 0, s, i, _ => set1 s i tmp
  | fuel + 1, s, i, j =>
    if j ≤ n then
      let j' := if j < n && decide (v.getD (get1 s j) 0 < v.getD (get1 s (j + 1)) 0)
        then j + 1 else j
      if v.getD tmp 0 < v.getD (get1 s j') 0 then
        hsSift v n tmp fuel (set1 s i (get1 s j')) j' (2 * j')
      else set1 s i tmp
    else set1 s i tmp

/-- numpy's `aheapsort` on a whole index list: heap build phase
(`l = n >> 1` down to 1) followed by the extraction phase (`n` down to 2). -/
def aheapsortList (v : List ℚ) (s0 : List ℕ) : List ℕ :=
  let n := s0.length
  let built := (List.range (n / 2)).reverse.foldl
    (fun s l1 => hsSift v n (get1 s (l1 + 1)) (n + 2) s (l1 + 1) (2 * (l1 + 1))) s0
  (List.range (n - 1)).foldl
    (fun s k =>
      let m := n - k
      let tmp := get1 s m
      let s' := set1 s m (get1 s 1)
      hsSift v (m - 1) tmp (n + 2) s' 1 2) built

/-- Run `aheapsort` applied to the segment `a[pl..pr]` (numpy calls it as
`aheapsort(vv, pl, pr - pl + 1)`). -/
def aheapsortSeg (v : List ℚ) (a : List ℕ) (pl pr : ℕ) : List ℕ :=
  applySeg (aheapsortList v) a pl pr

/-- The outer `for (;;)` of numpy's `aquicksort`: partition while the
segment is longer than `SMALL_QUICKSORT = 15` elements (falling back to
heapsort when the decrementing depth limit runs out), insertion-sort the
small segment otherwise, then pop the next segment off the explicit
stack.  Pushing `(a, b)` and popping `pr = *--sptr; pl = *--sptr`
correspond to consing a pair and matching it off. -/
def qsLoop (v : List ℚ) : ℕ → List ℕ → List (ℕ × ℕ) → ℕ → ℕ → ℤ → List ℕ
  | 0, a, _, _, _, _ => a
  | fuel + 1, a, stack, pl, pr, depth =>
    if 15 < pr - pl then
      if depth < 0 then
        let a' := aheapsortSeg v a pl pr
        match stack with
        | [] => a'
        | (pl', pr') :: st => qsLoop v fuel a' st pl' pr' (depth - 1)
      else
        let pm := pl + (pr - pl) / 2
        let a1 := if vAt v a pm < vAt v a pl then lswap a pm pl else a
        let a2 := if vAt v a1 pr < vAt v a1 pm then lswap a1 pr pm else a1
        let a3 := if vAt v a2 pm < vAt v a2 pl then lswap a2 pm pl else a2
        let vp := vAt v a3 pm
        let a4 := lswap a3 pm (pr - 1)
        let step := partLoop v vp (pr + 2) (pr + 2) a4 pl (pr - 1)
        let a6 := lswap step.1 step.2 (pr - 1)
        if step.2 - pl < pr - step.2 then
          qsLoop v fuel a6 ((step.2 + 1, pr) :: stack) pl (step.2 - 1) (depth - 1)
        else
          qsLoop v fuel a6 ((pl, step.2 - 1) :: stack) (step.2 + 1) pr (depth - 1)
    else
      let a' := insertionSeg v a pl pr
      match stack with
      | [] => a'
      | (pl', pr') :: st => qsLoop v fuel a' st pl' pr' depth

/-- Embeds `np.argsort(v, kind='quicksort')`: numpy's `aquicksort` run on
`tosort = [0, .., num-1]` (fuel `2·num + 2` covers every run: each
iteration either pops the stack or pushes exactly one segment, and at
most `num` partitions happen). -/
def npArgsort (v : List ℚ) : List ℕ :=
  qsLoop v (2 * v.length + 2) (List.range v.length) [] 0 (v.length - 1)
    (2 * (npyGetMsb v.length : ℤ))

/-! ## The analysis pipeline (`src/main.py`)

A pandas `DataFrame` reaching `analysis_loop` is modelled as a list of
`(index label, row)` pairs: `pd.concat(..., ignore_index=True)` gives the
freshly loaded frame labels `0..n-1`, and the filter steps keep labels
unchanged while dropping rows. -/

/-- A default labelled row (for total list indexing). -/
def defaultRow : Row :=
  { acq_year := 2000, acq_month := 1, acq_day := 1, acq_time := 0
    latitude := 0, longitude := 0, instrument := .MODIS, frp := 0 }

/-- Embeds `yield_top_points(df, column_name, n)`:
`df.sort_values(by=column_name).tail(n)` iterated as
`(index, FirePoint.from_dataset_row(row))` pairs.  `sort_values` orders
the rows by `npArgsort` of the column, `tail(n)` keeps the last `n`. -/
def yield_top_points (column : Row → ℚ) (df : List (ℕ × Row)) (n : ℕ) :
    List (ℕ × FirePoint) :=
  let order := npArgsort (df.map fun r => column r.2)
  (order.drop (df.length - n)).map fun p =>
    ((df.getD p (0, defaultRow)).1, FirePoint.from_dataset_row (df.getD p (0, defaultRow)).2)

/-- Embeds `get_close_points`: iterate over the *whole* dataset (top points and
the top point itself included) and collect every row whose `FirePoint`
satisfies `is_neighbor_of` against the top point. -/
def get_close_points (gdist : Pt → Pt → ℚ) (df : List (ℕ × Row)) (top_point : FirePoint)
    (distance_cutoff temporal_cutoff : ℚ) : List FirePoint :=
  (df.map fun r => FirePoint.from_dataset_row r.2).filter fun candidate =>
    top_point.is_neighbor_of gdist candidate temporal_cutoff distance_cutoff

/-- The per-top-point body of `analysis_loop`: for each
`(index, top_point)` yielded by `yield_top_points`, the group id is
`int(index) + 1` and the cluster is `get_close_points` over the whole
dataset.  The output sinks all receive these `(group_id, top point,
close points)` triples. -/
def analysis_clusters (gdist : Pt → Pt → ℚ) (column : Row → ℚ) (df : List (ℕ × Row))
    (n : ℕ) (distance_cutoff temporal_cutoff : ℚ) :
    List (ℕ × FirePoint × List FirePoint) :=
  (yield_top_points column df n).map fun it =>
    (it.1 + 1, it.2, get_close_points gdist df it.2 distance_cutoff temporal_cutoff)

/-! ## The filter stage (`main` in `src/main.py`) -/

/-- The three `filter_type` keys of the `filter_func` dictionary. -/
inductive FilterType where
  | equal : FilterType
  | below : FilterType
  | above : FilterType
deriving DecidableEq

/-- Embeds `filter_dataset_by_equal_value`. -/
def filter_dataset_by_equal_value (value_column : Row → ℚ) (cutoff_value : ℚ)
    (df : List (ℕ × Row)) : List (ℕ × Row) :=
  df.filter fun r => decide (value_column r.2 = cutoff_value)

/-- Embeds `filter_dataset_by_value_below`. -/
def filter_dataset_by_value_below (value_column : Row → ℚ) (cutoff_value : ℚ)
    (df : List (ℕ × Row)) : List (ℕ × Row) :=
  df.filter fun r => decide (value_column r.2 < cutoff_value)

/-- Embeds `filter_dataset_by_value_above`. -/
def filter_dataset_by_value_above (value_column : Row → ℚ) (cutoff_value : ℚ)
    (df : List (ℕ × Row)) : List (ℕ × Row) :=
  df.filter fun r => decide (cutoff_value < value_column r.2)

/-- The `filter_func` dictionary lookup in `main`. -/
def filter_func (t : FilterType) : (Row → ℚ) → ℚ → List (ℕ × Row) → List (ℕ × Row) :=
  match t with
  | .equal => filter_dataset_by_equal_value
  | .below => filter_dataset_by_value_below
  | .above => filter_dataset_by_value_above

/-- Ascending insertion sort of rational values (the sorted-order view
numpy's percentile computation needs; only the multiset matters). -/
def insertQ (x : ℚ) : List ℚ → List ℚ
  | [] => [x]
  | y :: ys => if x < y then x :: y :: ys else y :: insertQ x ys

/-- Sort a value list ascending. -/
def sortQ (l : List ℚ) : List ℚ :=
  l.foldl (fun acc x => insertQ x acc) []

/-- Embeds `np.percentile(values, q)` with the default linear interpolation:
position `(n-1)·q/100` into the ascending sorted values, interpolating
between the two bracketing entries.  numpy raises `ValueError` for a
percentile outside `[0, 100]` and errors on an empty array; both are
modelled as `none`. -/
def npPercentile (l : List ℚ) (q : ℚ) : Option ℚ :=
  if q < 0 ∨ 100 < q then none
  else if l.length = 0 then none
  else
    let s := sortQ l
    let pos : ℚ := ((l.length : ℚ) - 1) * q / 100
    let i : ℕ := (⌊pos⌋).toNat
    let lo := s.getD i 0
    let hi := s.getD (min (i + 1) (l.length - 1)) 0
    some (lo + (pos - (i : ℚ)) * (hi - lo))

/-- Embeds `filter_dataset_by_percentile`: cutoff is the `cutoff_percentile`-th
percentile of the column over the *given* dataset; keep rows whose value
is strictly greater. -/
def filter_dataset_by_percentile (percentile_column : Row → ℚ) (cutoff_percentile : ℚ)
    (df : List (ℕ × Row)) : Option (List (ℕ × Row)) :=
  match npPercentile (df.map fun r => percentile_column r.2) cutoff_percentile with
  | none => none
  | some cutoff_value => some (df.filter fun r => decide (cutoff_value < percentile_column r.2))

/-- The filtering section of `main`'s per-dataset loop: the value filter
(when enabled) rebinds `df` first, then the percentile filter (when
enabled) runs on the already value-filtered frame. -/
def mainFilterStage (value_filter : Bool) (filter_type : FilterType) (value_column : Row → ℚ)
    (cutoff_value : ℚ) (percentile_filter : Bool) (percentile_column : Row → ℚ)
    (cutoff_percentile : ℚ) (df : List (ℕ × Row)) : Option (List (ℕ × Row)) :=
  let df1 := if value_filter then filter_func filter_type value_column cutoff_value df else df
  if percentile_filter then
    filter_dataset_by_percentile percentile_column cutoff_percentile df1
  else some df1

/-! ## CSV output (`add_header`, `to_csv` in `src/main.py`,
`FirePoint.as_csv_row` in `src/fire_point.py`) -/

/-- Decimal digit character. -/
def digitChar (d : ℕ) : Char := Char.ofNat (48 + d)

/-- Zero-padded decimal rendering (CPython's `%04d`-style fields inside
`str(datetime)`). -/
def padNumStr (w n : ℕ) : String :=
  String.mk (List.replicate (w - (pyStrDigits n).length) '0' ++ (pyStrDigits n).map digitChar)

/-- The date half of `str(self.date)`: `YYYY-MM-DD`. -/
def dateStr (dt : PyDateTime) : String :=
  padNumStr 4 dt.year ++ "-" ++ padNumStr 2 dt.month ++ "-" ++ padNumStr 2 dt.day

/-- The time half of `str(self.date)`: `HH:MM:SS` (seconds always zero
for the datetimes this program builds). -/
def timeStr (dt : PyDateTime) : String :=
  padNumStr 2 dt.hour ++ ":" ++ padNumStr 2 dt.minute ++ ":00"

/-- Python's `str` of a bool inside an f-string. -/
def pyBoolStr (b : Bool) : String := if b then "True" else "False"

/-- Python's `str` of the instrument field. -/
def instrumentStr : Instrument → String
  | .MODIS => "MODIS"
  | .VIIRS => "VIIRS"

/-- Embeds `FirePoint.as_csv_row(self, is_top_point)`:
`f'{frp},{day},{time},{latitude},{longitude},{instrument},{is_top_point}'`.
Note the signature: the method accepts no group id.  Python's `repr` of
the float fields is abstracted as the parameter `reprFloat` (the call
sites never reach row rendering, see `to_csv`). -/
def as_csv_row (reprFloat : ℚ → String) (p : FirePoint) (top : Bool) : String :=
  reprFloat p.frp ++ "," ++ dateStr p.date ++ "," ++ timeStr p.date ++ "," ++
    reprFloat p.point.latitude ++ "," ++ reprFloat p.point.longitude ++ "," ++
    instrumentStr p.instrument ++ "," ++ pyBoolStr top

/-- The header line written by `add_header` in `src/main.py`. -/
def add_header_line : String :=
  "frp,day,time,latitude,longitude,instrument,is_top_point,group_id\n"

/-- Modelled from the spec: the header row the specification section 4.4
claims for the CSV file (note `date` where the code writes `day`). -/
def spec_csv_header : String :=
  "frp,date,time,latitude,longitude,instrument,is_top_point,group_id\n"

/-- The named parameters accepted by `FirePoint.as_csv_row` besides
`self`. -/
def as_csv_row_params : List String := ["is_top_point"]

/-- The keyword arguments `to_csv` passes to `top_point.as_csv_row(...)`
(and to `point.as_csv_row(...)`). -/
def to_csv_kwargs : List String := ["is_top_point", "group_id"]

/-- Python call binding: a call raises `TypeError` when it passes a
keyword argument that is not among the callee's parameters. -/
def pyKwargsBind (params kwargs : List String) : Bool :=
  kwargs.all fun k => params.contains k

/-- Embeds `to_csv` in `src/main.py`: returns early when the csv sink is
disabled (`csvfile is None`); otherwise calls
`top_point.as_csv_row(is_top_point=True, group_id=group_id)` and then
`point.as_csv_row(is_top_point=False, group_id=group_id)` per close
point.  Since `FirePoint.as_csv_row` does not accept `group_id`, the
first such call raises `TypeError`, modelled as `Except.error`. -/
def to_csv (reprFloat : ℚ → String) (csv_enabled : Bool) (top_point : FirePoint)
    (close_points : List FirePoint) (group_id : ℕ) : Except String (List String) :=
  if csv_enabled = false then .ok []
  else if pyKwargsBind as_csv_row_params to_csv_kwargs then
    .ok (as_csv_row reprFloat top_point true ::
      close_points.map fun p => as_csv_row reprFloat p false)
  else .error "TypeError: as_csv_row() got an unexpected keyword argument group_id"

/-! ## `conditional_open` (`src/utils.py`)

The `@contextmanager` generator is embedded as the ordered list of the
events its body performs, with `yield`s marking the suspension points.
`contextlib`'s `__enter__` runs the generator to its first yield;
`__exit__` (on normal block completion) resumes it and raises
`RuntimeError("generator didn't stop")` if the generator yields again
instead of finishing — leaving the generator suspended, so events after
that second yield (in particular the `finally: resource.close()`) do not
run. -/

/-- The observable events of the `conditional_open` generator body. -/
inductive FileEvent where
  | yieldedNone : FileEvent
  | openedFile : FileEvent
  | yieldedFile : FileEvent
  | closedFile : FileEvent
deriving DecidableEq, BEq

/-- Embeds the body of `conditional_open(filename, mode, condition)`:
`if not condition: yield None` (with no `return`, so the body falls
through), then `resource = open(filename, mode)`,
`try: yield resource finally: resource.close()`. -/
def conditional_open_events (condition : Bool) : List FileEvent :=
  (if condition then [] else [.yieldedNone]) ++
    [.openedFile, .yieldedFile, .closedFile]

/-- Perceives which events are generator yields. -/
def isYieldEvent : FileEvent → Bool
  | .yieldedNone => true
  | .yieldedFile => true
  | _ => false

/-- The events a `with conditional_open(...)` statement actually
executes: everything up to and including the second yield when there is
one (at which point `contextlib` raises `RuntimeError` and the generator
stays suspended), otherwise the whole body. -/
def executedEvents : List FileEvent → ℕ → List FileEvent
  | [], _ => []
  | e :: es, seen =>
    if isYieldEvent e then
      if seen + 1 ≥ 2 then [e] else e :: executedEvents es (seen + 1)
    else e :: executedEvents es seen

/-- Per `contextlib`, `__exit__` raises `RuntimeError("generator didn't
stop")` exactly when the generator reaches a second yield. -/
def cm_exit_raises (events : List FileEvent) : Bool :=
  2 ≤ (events.filter isYieldEvent).length

/-! ## `ignore_pandas_warning` (`src/utils.py`)

The decorator mutates the process-wide flag
`pandas.options.mode.chained_assignment`: it writes `None`, calls the
wrapped function, and writes back the constant `'warn'` — but only on
the normal-return path; an exception propagates past the write-back.
The flag is modelled as `Option String` (`none` = Python `None`); the
wrapped function receives the flag value in effect during its run (the
decorated functions in `src/main.py` never write it back themselves). -/

/-- Embeds the wrapper `f` produced by `ignore_pandas_warning(func)`,
run with the flag previously holding `prior`; returns the call's result
paired with the flag value after the call. -/
def ignore_pandas_warning {σ ε α : Type} (func : Option String → σ → Except ε (α × σ))
    (s : σ) (prior : Option String) : Except ε (α × σ) × Option String :=
  let _ := prior
  match func none s with
  | .ok r => (.ok r, some "warn")
  | .error e => (.error e, none)

/-! ## Stable ascending argsort, as the specification describes it -/

/-- Modelled from the spec: the strict "ascending by the ranking column,
ties in original ingestion order" ordering of row positions — the
lexicographic (value, position) order. -/
def lexLt (v : List ℚ) (i j : ℕ) : Prop :=
  v.getD i 0 < v.getD j 0 ∨ (v.getD i 0 = v.getD j 0 ∧ i < j)

instance (v : List ℚ) (i j : ℕ) : Decidable (lexLt v i j) := by
  unfold lexLt; infer_instance

/-- Modelled from the spec: stable insertion of position `x` into an
already sorted position list — `x` goes before the first entry that is
strictly after it in the (value, position) order. -/
def specStableInsert (v : List ℚ) (x : ℕ) : List ℕ → List ℕ
  | [] => [x]
  | y :: ys =>
    if v.getD x 0 < v.getD y 0 ∨ (v.getD x 0 = v.getD y 0 ∧ x ≤ y) then x :: y :: ys
    else y :: specStableInsert v x ys

/-- Modelled from the spec: the stable ascending argsort — "sort all
points ascending by the ranking column; stable sort preserves original
relative order among equal values". -/
def specStableArgsort (v : List ℚ) : List ℕ :=
  (List.range v.length).foldl (fun acc x => specStableInsert v x acc) []

/-! ## Concrete fixtures for counterexamples and witnesses -/

/-- A labelled dataset of 17 rows with identical `frp` (ingestion labels
`0..16`). -/
def equalFrpDf17 : List (ℕ × Row) :=
  (List.range 17).map fun i => (i, { defaultRow with frp := 1 })

/-- A labelled 5-row dataset whose unique maximum `frp` sits at index 2
(all rows share position and acquisition time). -/
def fiveRowDf : List (ℕ × Row) :=
  [(0, { defaultRow with frp := 1 }), (1, { defaultRow with frp := 2 }),
    (2, { defaultRow with frp := 5 }), (3, { defaultRow with frp := 3 }),
    (4, { defaultRow with frp := 4 })]

/-- A labelled 2-row dataset whose maximum `frp` sits at index 1. -/
def twoRowDf : List (ℕ × Row) :=
  [(0, defaultRow), (1, { defaultRow with frp := 7 })]

/-- A distance function that ignores its arguments (the geodesic
distance of identical points is 0 km). -/
def zeroDist : Pt → Pt → ℚ := fun _ _ => 0

/-- A concrete symmetric distance function on points (taxicab distance
in degrees), used to instantiate symmetry hypotheses. -/
def taxicabDist (p q : Pt) : ℚ :=
  |p.latitude - q.latitude| + |p.longitude - q.longitude|

/-- A concrete `FirePoint`. -/
def samplePointA : FirePoint :=
  FirePoint.from_dataset_row { defaultRow with latitude := 3, longitude := 4 }

/-- Another concrete `FirePoint`. -/
def samplePointB : FirePoint :=
  FirePoint.from_dataset_row { defaultRow with latitude := 5, longitude := 1, frp := 2 }

/-! # Theorems -/

/-- C1: for every pair of FirePoints `A`, `B` and cutoffs `d` (km) and
`t` (days), `A.is_neighbor_of(B, d, t)` returns true iff the distance
between the two geodesic points is strictly less than `d` AND the
absolute difference of the acquisition datetimes, in seconds, is
strictly less than `t × 86400`. -/
theorem is_neighbor_of_iff (gdist : Pt → Pt → ℚ) (A B : FirePoint) (d t : ℚ) :
    A.is_neighbor_of gdist B t d = true ↔
      gdist A.point B.point < d ∧
        ((|(A.date.totalSeconds : ℤ) - (B.date.totalSeconds : ℤ)| : ℚ) < t * 86400) := by
  unfold FirePoint.is_neighbor_of FirePoint.is_spatially_close_to
    FirePoint.is_temporally_close_to
  have e : (t * 3600 * 24 : ℚ) = t * 86400 := by ring
  simp only [Bool.and_eq_true, decide_eq_true_eq, e]
  push_cast
  tauto

/-- C9: `is_spatially_close_to` is symmetric in its two points, for any
symmetric distance function (the geodesic distance the external library
computes is symmetric: it is the great-circle distance of the spec). -/
theorem is_spatially_close_to_symm (gdist : Pt → Pt → ℚ)
    (hsym : ∀ p q, gdist p q = gdist q p) (A B : FirePoint) (d : ℚ) :
    A.is_spatially_close_to gdist B d = B.is_spatially_close_to gdist A d := by
  unfold FirePoint.is_spatially_close_to
  rw [hsym]

/-- Witness for C9: the taxicab distance is symmetric, and the symmetry
of `is_spatially_close_to` holds at two concrete points under it. -/
theorem is_spatially_close_to_symm_witness :
    (∀ p q, taxicabDist p q = taxicabDist q p) ∧
      samplePointA.is_spatially_close_to taxicabDist samplePointB 5 =
        samplePointB.is_spatially_close_to taxicabDist samplePointA 5 := by
  have hs : ∀ p q, taxicabDist p q = taxicabDist q p := by
    intro p q
    unfold taxicabDist
    rw [abs_sub_comm, abs_sub_comm p.longitude]
  exact ⟨hs, is_spatially_close_to_symm taxicabDist hs samplePointA samplePointB 5⟩

/-- C8 (evidence of the code bug): with `condition=False`, the
`conditional_open` generator yields `None`, then — for lack of a
`return` — opens the file anyway and yields a second time, so the
`with` block's exit raises `RuntimeError` and the opened file is not
closed by the executed events; with `condition=True` the discipline is
the claimed open-once/close-once. -/
theorem conditional_open_disabled_still_opens :
    (executedEvents (conditional_open_events false) 0).count FileEvent.openedFile = 1 ∧
    (executedEvents (conditional_open_events false) 0).count FileEvent.closedFile = 0 ∧
    cm_exit_raises (conditional_open_events false) = true ∧
    cm_exit_raises (conditional_open_events true) = false ∧
    executedEvents (conditional_open_events true) 0 =
      [FileEvent.openedFile, FileEvent.yieldedFile, FileEvent.closedFile] := by
  decide

/-- C10: the `ignore_pandas_warning` wrapper runs the wrapped function
with the chained-assignment flag set to `None`; on normal return it
writes the fixed value `'warn'`; if the function raises, the flag stays
`None`; in either case the prior flag value is never written back. -/
theorem ignore_pandas_warning_flag {σ ε α : Type}
    (func : Option String → σ → Except ε (α × σ)) (s : σ) (prior : Option String) :
    (∀ r, func none s = .ok r → ignore_pandas_warning func s prior = (.ok r, some "warn")) ∧
    (∀ e, func none s = .error e → ignore_pandas_warning func s prior = (.error e, none)) ∧
    ((ignore_pandas_warning func s prior).2 = some "warn" ∨
      (ignore_pandas_warning func s prior).2 = none) := by
  refine ⟨?_, ?_, ?_⟩
  · intro r h
    simp [ignore_pandas_warning, h]
  · intro e h
    simp [ignore_pandas_warning, h]
  · cases h : func none s <;> simp [ignore_pandas_warning, h]

/-- Witness for C10: a concrete wrapped function that returns normally,
and one that raises, run through the wrapper. -/
theorem ignore_pandas_warning_flag_witness :
    (fun (_ : Option String) (n : ℕ) => (.ok ((), n) : Except String (Unit × ℕ))) none 0 =
        .ok ((), 0) ∧
      ignore_pandas_warning
        (fun (_ : Option String) (n : ℕ) => (.ok ((), n) : Except String (Unit × ℕ)))
        0 (some "raise") = (.ok ((), 0), some "warn") ∧
      (fun (_ : Option String) (n : ℕ) => (.error "boom" : Except String (Unit × ℕ))) none 0 =
        .error "boom" ∧
      ignore_pandas_warning
        (fun (_ : Option String) (n : ℕ) => (.error "boom" : Except String (Unit × ℕ)))
        0 (some "raise") = (.error "boom", none) := by
  refine ⟨rfl, ?_, rfl, ?_⟩
  · exact (ignore_pandas_warning_flag _ 0 (some "raise")).1 ((), 0) rfl
  · exact (ignore_pandas_warning_flag _ 0 (some "raise")).2.1 "boom" rfl

/-- C6 (evidence of the code bug): with the csv sink enabled, the very
first `as_csv_row` call of `to_csv` raises `TypeError` because it passes
`group_id` and `FirePoint.as_csv_row` accepts only `is_top_point`; and
the header `add_header` actually writes says `day`, not the claimed
`date`. -/
theorem to_csv_raises_type_error :
    to_csv (fun _ => "") true samplePointA [] 1 =
      .error "TypeError: as_csv_row() got an unexpected keyword argument group_id" ∧
    add_header_line ≠ spec_csv_header ∧
    add_header_line = "frp,day,time,latitude,longitude,instrument,is_top_point,group_id\n" := by
  refine ⟨rfl, ?_, rfl⟩
  decide

/-! ### Decimal-string lemmas for C5 -/

/-- The fueled digit extraction agrees with `Nat.digits 10`. -/
theorem digitsRevFuel_eq (fuel : ℕ) : ∀ t, t ≤ fuel → digitsRevFuel fuel t = Nat.digits 10 t := by
  induction fuel with
  | zero =>
    intro t ht
    have : t = 0 := by omega
    subst this
    simp [digitsRevFuel]
  | succ f ih =>
    intro t ht
    match t with
    | 0 => simp [digitsRevFuel]
    | s + 1 =>
      have h1 : (s + 1) / 10 ≤ f := by
        have := Nat.div_lt_self (Nat.succ_pos s) (by norm_num : 1 < 10)
        omega
      rw [digitsRevFuel, ih _ h1,
        Nat.digits_def' (by norm_num : (1:ℕ) < 10) (Nat.succ_pos s)]

/-- Python's digit string of a positive int is the reversed
`Nat.digits` list. -/
theorem pyStrDigits_eq (t : ℕ) (ht : t ≠ 0) :
    pyStrDigits t = (Nat.digits 10 t).reverse := by
  unfold pyStrDigits
  rw [if_neg ht, digitsRevFuel_eq t t le_rfl]

/-- Taking all but the last `k` entries of a reversed list drops the
first `k` entries of the original. -/
theorem reverse_take_sub {α : Type} (l : List α) (k : ℕ) :
    l.reverse.take (l.length - k) = (l.drop k).reverse := by
  have h : l.reverse = (l.drop k).reverse ++ (l.take k).reverse := by
    rw [← List.reverse_append, List.take_append_drop]
  have hl : l.length - k = (l.drop k).reverse.length := by
    rw [List.length_reverse, List.length_drop]
  rw [h, hl, List.take_left]

/-- Keeping the last `k` entries of a reversed list keeps the first `k`
entries of the original. -/
theorem reverse_drop_sub {α : Type} (l : List α) (k : ℕ) :
    l.reverse.drop (l.length - k) = (l.take k).reverse := by
  have h : l.reverse = (l.drop k).reverse ++ (l.take k).reverse := by
    rw [← List.reverse_append, List.take_append_drop]
  have hl : l.length - k = (l.drop k).reverse.length := by
    rw [List.length_reverse, List.length_drop]
  rw [h, hl, List.drop_left]

/-- Parsing a nonempty digit string yields its value. -/
theorem pyIntOfDigits_of_ne_nil (l : List ℕ) (h : l ≠ []) :
    pyIntOfDigits l = some (Nat.ofDigits 10 l.reverse) := by
  cases l with
  | nil => exact absurd rfl h
  | cons a l => rfl

/-- Numbers below 100 have at most two decimal digits. -/
theorem digits_len_le_two (t : ℕ) (ht : t < 100) : (Nat.digits 10 t).length ≤ 2 := by
  rcases Nat.eq_zero_or_pos t with h0 | hpos
  · subst h0; simp
  · by_contra h
    push_neg at h
    have hb := Nat.base_pow_length_digits_le 10 t (by norm_num) (by omega)
    have hp : (10:ℕ) ^ 3 ≤ 10 ^ (Nat.digits 10 t).length :=
      Nat.pow_le_pow_right (by norm_num) h
    omega

/-- Numbers with at least 100 have more than two decimal digits. -/
theorem two_lt_digits_len (t : ℕ) (ht : 100 ≤ t) : 2 < (Nat.digits 10 t).length := by
  by_contra h
  push_neg at h
  have hlt := Nat.lt_base_pow_length_digits (b := 10) (m := t) (by norm_num)
  have hp : (10:ℕ) ^ (Nat.digits 10 t).length ≤ 10 ^ 2 :=
    Nat.pow_le_pow_right (by norm_num) h
  omega

/-- For `t ≥ 10` the first two decimal digits are `t % 10` and
`(t / 10) % 10`, the rest are the digits of `t / 100`. -/
theorem digits_cons_cons (t : ℕ) (ht : 10 ≤ t) :
    Nat.digits 10 t = t % 10 :: (t / 10) % 10 :: Nat.digits 10 (t / 100) := by
  have h1 : Nat.digits 10 t = t % 10 :: Nat.digits 10 (t / 10) :=
    Nat.digits_def' (by norm_num) (by omega)
  have h2 : Nat.digits 10 (t / 10) = (t / 10) % 10 :: Nat.digits 10 (t / 10 / 10) :=
    Nat.digits_def' (by norm_num) (by omega)
  have h3 : t / 10 / 10 = t / 100 := by
    rw [Nat.div_div_eq_div_mul]
  rw [h1, h2, h3]

/-- The hour parsed from a UTC time integer is `t / 100` when `t ≥ 100`
and 0 otherwise. -/
theorem hour_from_utc_integer_eq (t : ℕ) :
    hour_from_utc_integer t = if 100 ≤ t then t / 100 else 0 := by
  by_cases ht : 100 ≤ t
  · rw [if_pos ht]
    have ht0 : t ≠ 0 := by omega
    unfold hour_from_utc_integer
    rw [pyStrDigits_eq t ht0, List.length_reverse, reverse_take_sub]
    rw [digits_cons_cons t (by omega)]
    have hd2 : (t % 10 :: (t / 10) % 10 :: Nat.digits 10 (t / 100)).drop 2 =
        Nat.digits 10 (t / 100) := rfl
    rw [hd2]
    have hne : Nat.digits 10 (t / 100) ≠ [] :=
      Nat.digits_ne_nil_iff_ne_zero.mpr (by omega)
    have hner : (Nat.digits 10 (t / 100)).reverse ≠ [] := by
      simpa using hne
    rw [pyIntOfDigits_of_ne_nil _ hner, List.reverse_reverse, Nat.ofDigits_digits]
  · rw [if_neg ht]
    rcases Nat.eq_zero_or_pos t with h0 | hpos
    · subst h0; rfl
    · unfold hour_from_utc_integer
      rw [pyStrDigits_eq t (by omega), List.length_reverse]
      have hlen : (Nat.digits 10 t).length - 2 = 0 := by
        have := digits_len_le_two t (by omega)
        omega
      rw [hlen, List.take_zero]
      rfl

/-- The minute parsed from a UTC time integer is `t % 100`. -/
theorem minute_from_utc_integer_eq (t : ℕ) :
    minute_from_utc_integer t = t % 100 := by
  rcases Nat.eq_zero_or_pos t with h0 | hpos
  · subst h0; rfl
  · unfold minute_from_utc_integer
    rw [pyStrDigits_eq t (by omega), List.length_reverse, reverse_drop_sub]
    have hne : (Nat.digits 10 t).take 2 ≠ [] := by
      have : Nat.digits 10 t ≠ [] := Nat.digits_ne_nil_iff_ne_zero.mpr (by omega)
      cases h : Nat.digits 10 t with
      | nil => exact absurd h this
      | cons a l => simp [h]
    have hner : ((Nat.digits 10 t).take 2).reverse ≠ [] := by
      simpa using hne
    rw [pyIntOfDigits_of_ne_nil _ hner, List.reverse_reverse, Option.getD_some]
    by_cases h10 : 10 ≤ t
    · rw [digits_cons_cons t h10]
      have htake : (t % 10 :: (t / 10) % 10 :: Nat.digits 10 (t / 100)).take 2 =
          [t % 10, (t / 10) % 10] := rfl
      rw [htake]
      simp only [Nat.ofDigits_cons, Nat.ofDigits_nil]
      omega
    · have h1 : Nat.digits 10 t = t % 10 :: Nat.digits 10 (t / 10) :=
        Nat.digits_def' (by norm_num) (by omega)
      have h2 : t / 10 = 0 := by omega
      rw [h1, h2, Nat.digits_zero]
      simp only [List.take, Nat.ofDigits_cons, Nat.ofDigits_nil]
      omega

/-- C5: for every non-negative UTC time integer `t`, parsing yields
`hour = t // 100` when `t ≥ 100` else 0, and `minute = t % 100`; hence
`hour*100 + minute = t` when `t` has at least 3 digits, and
`minute = t` with `hour = 0` when `t < 100`. -/
theorem utc_time_parse (y m d t : ℕ) :
    (convert_to_datetime y m d t).hour = (if 100 ≤ t then t / 100 else 0) ∧
    (convert_to_datetime y m d t).minute = t % 100 ∧
    (100 ≤ t →
      (convert_to_datetime y m d t).hour * 100 + (convert_to_datetime y m d t).minute = t) ∧
    (t < 100 →
      (convert_to_datetime y m d t).minute = t ∧ (convert_to_datetime y m d t).hour = 0) := by
  have hh : (convert_to_datetime y m d t).hour = if 100 ≤ t then t / 100 else 0 :=
    hour_from_utc_integer_eq t
  have hm : (convert_to_datetime y m d t).minute = t % 100 :=
    minute_from_utc_integer_eq t
  refine ⟨hh, hm, ?_, ?_⟩
  · intro ht
    rw [hh, hm, if_pos ht]
    omega
  · intro ht
    rw [hh, hm, if_neg (by omega)]
    exact ⟨by omega, rfl⟩

/-- Witness for C5 at the spec's own examples: time integer 830 → hour
8, minute 30 (and `8*100 + 30 = 830`); time integer 30 → hour 0,
minute 30. -/
theorem utc_time_parse_witness :
    (100 ≤ 830 ∧
      (convert_to_datetime 2019 8 1 830).hour * 100 +
        (convert_to_datetime 2019 8 1 830).minute = 830) ∧
    (30 < 100 ∧
      (convert_to_datetime 2019 8 1 30).minute = 30 ∧
      (convert_to_datetime 2019 8 1 30).hour = 0) := by
  exact ⟨⟨by norm_num, (utc_time_parse 2019 8 1 830).2.2.1 (by norm_num)⟩,
    ⟨by norm_num, (utc_time_parse 2019 8 1 30).2.2.2 (by norm_num)⟩⟩

/-! ### Stability lemmas for the small-array insertion sort (C4, C2) -/

/-- Inserting an index permutes consing it. -/
theorem insertR_perm (v : List ℚ) (x : ℕ) : ∀ l : List ℕ, (insertR v x l).Perm (x :: l) := by
  intro l
  induction l with
  | nil => exact List.Perm.refl _
  | cons y ys ih =>
    unfold insertR
    by_cases hc : v.getD x 0 < v.getD y 0
    · rw [if_pos hc]
    · rw [if_neg hc]
      exact (ih.cons y).trans (List.Perm.swap x y ys)

/-- Membership after insertion. -/
theorem mem_insertR (v : List ℚ) (x z : ℕ) (l : List ℕ) :
    z ∈ insertR v x l ↔ z = x ∨ z ∈ l := by
  rw [(insertR_perm v x l).mem_iff, List.mem_cons]

/-- When the inserted index exceeds everything present, numpy's
strict-shift insertion coincides with the spec's stable insertion. -/
theorem insertR_eq_specStableInsert (v : List ℚ) (x : ℕ) :
    ∀ l : List ℕ, (∀ y ∈ l, y < x) → insertR v x l = specStableInsert v x l := by
  intro l
  induction l with
  | nil => intro _; rfl
  | cons y ys ih =>
    intro h
    have hyx : y < x := h y (List.mem_cons_self y ys)
    unfold insertR specStableInsert
    by_cases hc : v.getD x 0 < v.getD y 0
    · rw [if_pos hc, if_pos (Or.inl hc)]
    · have hc2 : ¬(v.getD x 0 < v.getD y 0 ∨ (v.getD x 0 = v.getD y 0 ∧ x ≤ y)) := by
        rintro (h1 | ⟨_, h2⟩)
        · exact hc h1
        · omega
      rw [if_neg hc, if_neg hc2, ih fun z hz => h z (List.mem_cons_of_mem _ hz)]

/-- Inserting an index larger than everything present preserves
lexicographic (value, position) sortedness. -/
theorem insertR_pairwise (v : List ℚ) (x : ℕ) :
    ∀ l : List ℕ, List.Pairwise (lexLt v) l → (∀ y ∈ l, y < x) →
      List.Pairwise (lexLt v) (insertR v x l) := by
  intro l
  induction l with
  | nil => intro _ _; simp [insertR, List.pairwise_singleton]
  | cons y ys ih =>
    intro hp hb
    rw [List.pairwise_cons] at hp
    unfold insertR
    by_cases hc : v.getD x 0 < v.getD y 0
    · rw [if_pos hc]
      refine List.Pairwise.cons ?_ (List.Pairwise.cons hp.1 hp.2)
      intro z hz
      rcases List.mem_cons.mp hz with rfl | hz'
      · exact Or.inl hc
      · rcases hp.1 z hz' with h1 | ⟨h1, _⟩
        · exact Or.inl (lt_trans hc h1)
        · exact Or.inl (h1 ▸ hc)
    · rw [if_neg hc]
      refine List.Pairwise.cons ?_ (ih hp.2 fun z hz => hb z (List.mem_cons_of_mem _ hz))
      intro z hz
      rcases (mem_insertR v x z ys).mp hz with rfl | hz'
      · rcases (le_of_not_lt hc).lt_or_eq with h1 | h1
        · exact Or.inl h1
        · exact Or.inr ⟨h1, hb y (List.mem_cons_self y ys)⟩
      · exact hp.1 z hz'

/-- One step of the insertion argsort over the initial index range. -/
theorem insertionList_range_succ (v : List ℚ) (n : ℕ) :
    insertionList v (List.range (n + 1)) = insertR v n (insertionList v (List.range n)) := by
  unfold insertionList
  rw [List.range_succ, List.foldl_append]
  rfl

/-- The insertion argsort of `0..n-1` is a permutation of `0..n-1`. -/
theorem insertionList_range_perm (v : List ℚ) (n : ℕ) :
    (insertionList v (List.range n)).Perm (List.range n) := by
  induction n with
  | zero => exact List.Perm.refl _
  | succ m ih =>
    rw [insertionList_range_succ]
    refine ((insertR_perm v m _).trans (ih.cons m)).trans ?_
    rw [List.range_succ]
    exact (List.perm_append_singleton m (List.range m)).symm

/-- Membership bound for the insertion argsort of `0..n-1`. -/
theorem mem_insertionList_range (v : List ℚ) (n z : ℕ) :
    z ∈ insertionList v (List.range n) ↔ z < n := by
  rw [(insertionList_range_perm v n).mem_iff, List.mem_range]

/-- The insertion argsort of `0..n-1` is sorted in the lexicographic
(value, position) order: ascending by value, ties by original position. -/
theorem insertionList_range_pairwise (v : List ℚ) (n : ℕ) :
    List.Pairwise (lexLt v) (insertionList v (List.range n)) := by
  induction n with
  | zero => simp [insertionList]
  | succ m ih =>
    rw [insertionList_range_succ]
    exact insertR_pairwise v m _ ih fun z hz => (mem_insertionList_range v m z).mp hz

/-- numpy's insertion argsort over a full index range coincides with the
spec's stable ascending argsort. -/
theorem insertionList_range_eq_spec (v : List ℚ) (n : ℕ) :
    insertionList v (List.range n) =
      (List.range n).foldl (fun acc x => specStableInsert v x acc) [] := by
  induction n with
  | zero => rfl
  | succ m ih =>
    rw [insertionList_range_succ, List.range_succ, List.foldl_append]
    show insertR v m (insertionList v (List.range m)) =
      specStableInsert v m ((List.range m).foldl (fun acc x => specStableInsert v x acc) [])
    rw [← ih, insertR_eq_specStableInsert v m _
      fun z hz => (mem_insertionList_range v m z).mp hz]

/-- On at most 16 elements (`pr - pl ≤ SMALL_QUICKSORT`), numpy's
argsort runs exactly one insertion sort over the whole index range. -/
theorem npArgsort_small (v : List ℚ) (h : v.length ≤ 16) :
    npArgsort v = insertionList v (List.range v.length) := by
  unfold npArgsort
  rw [show 2 * v.length + 2 = (2 * v.length + 1) + 1 from rfl]
  rw [qsLoop]
  rw [if_neg (by omega : ¬ 15 < v.length - 1 - 0)]
  show insertionSeg v (List.range v.length) 0 (v.length - 1) = _
  unfold insertionSeg applySeg
  rw [List.take_zero, List.drop_zero, List.nil_append,
    List.take_of_length_le (by rw [List.length_range]; omega),
    List.drop_eq_nil_of_le (by rw [List.length_range]; omega), List.append_nil]

/-- The spec's stable argsort is the insertion argsort of the range. -/
theorem specStableArgsort_eq_insertionList (v : List ℚ) :
    specStableArgsort v = insertionList v (List.range v.length) := by
  unfold specStableArgsort
  rw [insertionList_range_eq_spec]

/-- C4 (amended): for a dataset of at most 16 rows (numpy's
`SMALL_QUICKSORT` threshold, where `sort_values`' default quicksort is
pure insertion sort and hence stable), the top-N selection equals the
last `N` entries of the stable ascending sort of the ranking column —
ascending by value with ties in original ingestion order — processed in
that (ascending-rank) order; beyond 16 rows the default quicksort is not
stable (see the counterexample), so ties need not follow ingestion
order. -/
theorem top_selection_stable_of_small (column : Row → ℚ) (df : List (ℕ × Row)) (n : ℕ)
    (h : df.length ≤ 16) :
    npArgsort (df.map fun r => column r.2) = specStableArgsort (df.map fun r => column r.2) ∧
    List.Pairwise (lexLt (df.map fun r => column r.2))
      (specStableArgsort (df.map fun r => column r.2)) ∧
    (specStableArgsort (df.map fun r => column r.2)).Perm (List.range df.length) ∧
    yield_top_points column df n =
      ((specStableArgsort (df.map fun r => column r.2)).drop (df.length - n)).map fun p =>
        ((df.getD p (0, defaultRow)).1, FirePoint.from_dataset_row (df.getD p (0, defaultRow)).2) := by
  have hlen : (df.map fun r => column r.2).length = df.length := List.length_map _ _
  have he : npArgsort (df.map fun r => column r.2) =
      specStableArgsort (df.map fun r => column r.2) := by
    rw [npArgsort_small _ (by rw [hlen]; exact h), specStableArgsort_eq_insertionList]
  refine ⟨he, ?_, ?_, ?_⟩
  · rw [specStableArgsort_eq_insertionList]
    exact insertionList_range_pairwise _ _
  · rw [specStableArgsort_eq_insertionList, hlen]
    exact insertionList_range_perm _ _
  · unfold yield_top_points
    rw [he]

/-- Witness for C4's amended theorem at the concrete 5-row dataset. -/
theorem top_selection_stable_of_small_witness :
    fiveRowDf.length ≤ 16 ∧
      yield_top_points (fun r => r.frp) fiveRowDf 2 =
        ((specStableArgsort (fiveRowDf.map fun r => r.2.frp)).drop (fiveRowDf.length - 2)).map
          fun p => ((fiveRowDf.getD p (0, defaultRow)).1,
            FirePoint.from_dataset_row (fiveRowDf.getD p (0, defaultRow)).2) := by
  exact ⟨by decide,
    (top_selection_stable_of_small (fun r => r.frp) fiveRowDf 2 (by decide)).2.2.2⟩

/-- C4 (counterexample): a 17-row dataset with all ranking values equal.
The stable ascending sort is the identity permutation, so the claim's
top-2 selection would be rows 15 and 16 in that order; the code
(`sort_values` default quicksort, which partitions once at 17 elements)
selects rows 7 and 16 instead — ties are not broken by ingestion
order. -/
theorem top_selection_not_stable_cex :
    (equalFrpDf17.map fun r => r.2.frp) = List.replicate 17 1 ∧
    specStableArgsort (equalFrpDf17.map fun r => r.2.frp) = List.range 17 ∧
    (yield_top_points (fun r => r.frp) equalFrpDf17 2).map Prod.fst ≠ [15, 16] ∧
    (yield_top_points (fun r => r.frp) equalFrpDf17 2).map Prod.fst = [7, 16] := by
  refine ⟨by decide, by decide, by decide, by decide⟩

/-! ### Clustering lemmas and theorems (C2, C3) -/

/-- Two FirePoints with equal acquisition seconds are neighbors under
the zero distance function and any positive cutoffs. -/
theorem is_neighbor_of_of_same_seconds (a b : FirePoint)
    (h : a.date.totalSeconds = b.date.totalSeconds) (d t : ℚ) (hd : 0 < d) (ht : 0 < t) :
    a.is_neighbor_of zeroDist b t d = true := by
  unfold FirePoint.is_neighbor_of FirePoint.is_spatially_close_to
    FirePoint.is_temporally_close_to zeroDist
  rw [h]
  simp only [sub_self, abs_zero, Int.cast_zero, Bool.and_eq_true, decide_eq_true_eq]
  exact ⟨hd, by positivity⟩

/-- Reading a mapped labelled dataset at a valid position. -/
theorem getD_map_of_lt {β : Type} (f : ℕ × Row → β) (dflt : β) :
    ∀ (df : List (ℕ × Row)) (j : ℕ), j < df.length →
      (df.map f).getD j dflt = f (df.getD j (0, defaultRow)) := by
  intro df
  induction df with
  | nil => intro j h; exact absurd h (by simp)
  | cons p l ih =>
    intro j h
    cases j with
    | zero => rfl
    | succ m => exact ih m (by simpa using h)

/-- In a lexicographically sorted permutation of `0..n-1`, the last
entry is the position of the unique maximum value. -/
theorem sorted_perm_drop_last (v : List ℚ) (l : List ℕ) (n j : ℕ)
    (hperm : l.Perm (List.range n)) (hpair : List.Pairwise (lexLt v) l)
    (hj : j < n) (hmax : ∀ i, i < n → i ≠ j → v.getD i 0 < v.getD j 0) :
    l.drop (n - 1) = [j] := by
  have llen : l.length = n := by
    rw [hperm.length_eq, List.length_range]
  have hn1 : n - 1 < l.length := by omega
  have hdrop : l.drop (n - 1) = l[n - 1] :: l.drop (n - 1 + 1) :=
    List.drop_eq_getElem_cons hn1
  have hnil : l.drop (n - 1 + 1) = [] := List.drop_eq_nil_of_le (by omega)
  have hjl : j ∈ l := hperm.mem_iff.mpr (List.mem_range.mpr hj)
  obtain ⟨i, hi, hgi⟩ := List.getElem_of_mem hjl
  have hnd : l.Nodup := hperm.nodup_iff.mpr (List.nodup_range n)
  have hm : l[n - 1] = j := by
    by_cases hie : i = n - 1
    · subst hie
      exact hgi
    · have hilt : i < n - 1 := by omega
      have hrel := List.pairwise_iff_getElem.mp hpair i (n - 1) hi hn1 hilt
      rw [hgi] at hrel
      have hmem : l[n - 1] ∈ l := List.getElem_mem hn1
      have hmn : l[n - 1] < n := List.mem_range.mp (hperm.mem_iff.mp hmem)
      have hne : l[n - 1] ≠ j := by
        intro he
        rw [← hgi] at he
        have := (List.Nodup.getElem_inj_iff hnd).mp he
        omega
      have hlt := hmax (l[n - 1]) hmn hne
      rcases hrel with h1 | ⟨h1, _⟩
      · exact absurd hlt (lt_asymm h1)
      · exact absurd hlt (by rw [h1]; exact lt_irrefl _)
  rw [hdrop, hnil, hm]

/-- C2 (amended): `get_close_points` scans the entire dataset — top
points, the top point itself included — and collects exactly the points
satisfying `is_neighbor_of` against it; clustering with `N=1` on a
5-point dataset with one distinct-maximum-FRP point (at index `j`) and
cutoffs large enough to include all yields the single cluster of all 5
points with the maximum-FRP point as its top point — carrying group id
`j + 1` (the top row's dataframe index plus one), which is 1 exactly
when the maximum sits at index 0. -/
theorem whole_scan_and_five_point_cluster :
    (∀ (gdist : Pt → Pt → ℚ) (df : List (ℕ × Row)) (top : FirePoint) (d t : ℚ)
        (p : FirePoint),
      p ∈ get_close_points gdist df top d t ↔
        ∃ r ∈ df, p = FirePoint.from_dataset_row r.2 ∧
          top.is_neighbor_of gdist p t d = true) ∧
    (∀ (gdist : Pt → Pt → ℚ) (df : List (ℕ × Row)) (d t : ℚ) (j : ℕ),
      df.map Prod.fst = List.range 5 →
      j < 5 →
      (∀ i, i < 5 → i ≠ j →
        (df.getD i (0, defaultRow)).2.frp < (df.getD j (0, defaultRow)).2.frp) →
      (∀ r ∈ df,
        (FirePoint.from_dataset_row (df.getD j (0, defaultRow)).2).is_neighbor_of gdist
          (FirePoint.from_dataset_row r.2) t d = true) →
      analysis_clusters gdist (fun r => r.frp) df 1 d t =
        [(j + 1, FirePoint.from_dataset_row (df.getD j (0, defaultRow)).2,
          df.map fun r => FirePoint.from_dataset_row r.2)]) := by
  constructor
  · intro gdist df top d t p
    unfold get_close_points
    simp only [List.mem_filter, List.mem_map]
    constructor
    · rintro ⟨⟨r, hr, rfl⟩, hpred⟩
      exact ⟨r, hr, rfl, hpred⟩
    · rintro ⟨r, hr, rfl, hpred⟩
      exact ⟨⟨r, hr, rfl⟩, hpred⟩
  · intro gdist df d t j hlabels hj hmax hnb
    have hlen : df.length = 5 := by
      have := congrArg List.length hlabels
      rwa [List.length_map, List.length_range] at this
    have hvlen : (df.map fun r => r.2.frp).length = 5 := by
      rw [List.length_map, hlen]
    have hvget : ∀ i, i < 5 →
        (df.map fun r => r.2.frp).getD i 0 = (df.getD i (0, defaultRow)).2.frp := by
      intro i hi
      exact getD_map_of_lt (fun r => r.2.frp) 0 df i (by omega)
    have hord : npArgsort (df.map fun r => r.2.frp) =
        insertionList (df.map fun r => r.2.frp) (List.range 5) := by
      rw [npArgsort_small _ (by omega), hvlen]
    have hdrop : (npArgsort (df.map fun r => r.2.frp)).drop (df.length - 1) = [j] := by
      rw [hord, hlen]
      refine sorted_perm_drop_last _ _ 5 j (insertionList_range_perm _ 5)
        (insertionList_range_pairwise _ 5) hj ?_
      intro i hi hne
      rw [hvget i hi, hvget j hj]
      exact hmax i hi hne
    have hlabelj : (df.getD j (0, defaultRow)).1 = j := by
      have h1 : (df.map Prod.fst).getD j 0 = (List.range 5).getD j 0 := by
        rw [hlabels]
      rw [getD_map_of_lt Prod.fst 0 df j (by omega)] at h1
      rw [h1]
      interval_cases j <;> rfl
    have hy : yield_top_points (fun r => r.frp) df 1 =
        [(j, FirePoint.from_dataset_row (df.getD j (0, defaultRow)).2)] := by
      simp only [yield_top_points]
      rw [hdrop]
      simp only [List.map_cons, List.map_nil, hlabelj]
    have hclose : get_close_points gdist df
        (FirePoint.from_dataset_row (df.getD j (0, defaultRow)).2) d t =
        df.map fun r => FirePoint.from_dataset_row r.2 := by
      unfold get_close_points
      apply List.filter_eq_self.mpr
      intro a ha
      rcases List.mem_map.mp ha with ⟨r, hr, rfl⟩
      exact hnb r hr
    unfold analysis_clusters
    rw [hy]
    simp only [List.map_cons, List.map_nil, hclose]

/-- Witness for C2's amended theorem at the concrete 5-row dataset with
its maximum at index 2 and the zero distance function. -/
theorem whole_scan_and_five_point_cluster_witness :
    fiveRowDf.map Prod.fst = List.range 5 ∧ (2 : ℕ) < 5 ∧
      analysis_clusters zeroDist (fun r => r.frp) fiveRowDf 1 1 1 =
        [(3, FirePoint.from_dataset_row (fiveRowDf.getD 2 (0, defaultRow)).2,
          fiveRowDf.map fun r => FirePoint.from_dataset_row r.2)] := by
  have hnb : ∀ r ∈ fiveRowDf,
      (FirePoint.from_dataset_row (fiveRowDf.getD 2 (0, defaultRow)).2).is_neighbor_of zeroDist
        (FirePoint.from_dataset_row r.2) 1 1 = true := by
    intro r hr
    fin_cases hr <;> exact is_neighbor_of_of_same_seconds _ _ rfl 1 1 one_pos one_pos
  refine ⟨by decide, by decide, ?_⟩
  exact whole_scan_and_five_point_cluster.2 zeroDist fiveRowDf 1 1 2 (by decide) (by decide)
    (by decide) hnb

/-- C2 (counterexample): on the 5-row dataset whose distinct maximum FRP
sits at index 2 (cutoffs 1 km / 1 day include all points: they share
location and time), `N=1` clustering does produce the full 5-point
cluster with the maximum-FRP point on top — but its group id is 3, not
the claimed 1. -/
theorem five_point_group_id_cex :
    (fiveRowDf.map fun r => r.2.frp) = [1, 2, 5, 3, 4] ∧
    get_close_points zeroDist fiveRowDf
        (FirePoint.from_dataset_row (fiveRowDf.getD 2 (0, defaultRow)).2) 1 1 =
      fiveRowDf.map (fun r => FirePoint.from_dataset_row r.2) ∧
    yield_top_points (fun r => r.frp) fiveRowDf 1 =
      [(2, FirePoint.from_dataset_row (fiveRowDf.getD 2 (0, defaultRow)).2)] ∧
    (analysis_clusters zeroDist (fun r => r.frp) fiveRowDf 1 1 1).map (fun c => c.1) = [3] ∧
    (analysis_clusters zeroDist (fun r => r.frp) fiveRowDf 1 1 1).map (fun c => c.1) ≠ [1] := by
  refine ⟨by decide, ?_, by decide, by decide, by decide⟩
  unfold get_close_points
  apply List.filter_eq_self.mpr
  intro a ha
  rcases List.mem_map.mp ha with ⟨r, hr, rfl⟩
  fin_cases hr <;> exact is_neighbor_of_of_same_seconds _ _ rfl 1 1 one_pos one_pos

/-- C3 (amended): the group id assigned to each cluster is the top
point's dataframe index label plus one, in processing order — not a
sequential counter; ids run 1, 2, … only when the selected top points
happen to carry labels 0, 1, … in processing order. -/
theorem group_ids_are_index_plus_one (gdist : Pt → Pt → ℚ) (column : Row → ℚ)
    (df : List (ℕ × Row)) (n : ℕ) (d t : ℚ) :
    (analysis_clusters gdist column df n d t).map (fun c => c.1) =
      ((npArgsort (df.map fun r => column r.2)).drop (df.length - n)).map
        fun p => (df.getD p (0, defaultRow)).1 + 1 := by
  unfold analysis_clusters yield_top_points
  rw [List.map_map, List.map_map]
  rfl

/-- C3 (counterexample): a freshly ingested 2-row dataset whose maximum
FRP row carries index 1; with `N=1` the first processed cluster receives
group id 2, not 1, so the ids are not the sequential integers starting
at 1. -/
theorem group_ids_not_sequential_cex :
    twoRowDf.map Prod.fst = List.range 2 ∧
    (analysis_clusters zeroDist (fun r => r.frp) twoRowDf 1 1 1).map (fun c => c.1) = [2] ∧
    (analysis_clusters zeroDist (fun r => r.frp) twoRowDf 1 1 1).map (fun c => c.1) ≠ [1] := by
  refine ⟨by decide, by decide, by decide⟩

/-! ### Filter pipeline (C7) -/

/-- C7: when both filters are enabled, the value filter runs first and
the percentile filter keeps exactly the rows whose column value is
strictly greater than the percentile cutoff computed over the
already value-filtered dataset — rows equal to the cutoff are excluded
(`np.percentile` requires the value-filtered dataset to be nonempty). -/
theorem value_filter_before_percentile (ftype : FilterType) (vcol pcol : Row → ℚ)
    (cv cp : ℚ) (df : List (ℕ × Row))
    (h : filter_func ftype vcol cv df ≠ []) (hq : 0 ≤ cp ∧ cp ≤ 100) :
    ∃ c, npPercentile ((filter_func ftype vcol cv df).map fun r => pcol r.2) cp = some c ∧
      mainFilterStage true ftype vcol cv true pcol cp df =
        some ((filter_func ftype vcol cv df).filter fun r => decide (c < pcol r.2)) ∧
      ∀ res, mainFilterStage true ftype vcol cv true pcol cp df = some res →
        ∀ r, r ∈ res ↔ r ∈ filter_func ftype vcol cv df ∧ c < pcol r.2 := by
  have hne : ((filter_func ftype vcol cv df).map fun r => pcol r.2).length ≠ 0 := by
    rw [List.length_map]
    intro h0
    exact h (List.length_eq_zero.mp h0)
  obtain ⟨c, hc⟩ : ∃ c,
      npPercentile ((filter_func ftype vcol cv df).map fun r => pcol r.2) cp = some c := by
    unfold npPercentile
    rw [if_neg (by push_neg; exact ⟨hq.1, hq.2⟩ : ¬(cp < 0 ∨ 100 < cp)), if_neg hne]
    exact ⟨_, rfl⟩
  have hmain : mainFilterStage true ftype vcol cv true pcol cp df =
      some ((filter_func ftype vcol cv df).filter fun r => decide (c < pcol r.2)) := by
    simp only [mainFilterStage, filter_dataset_by_percentile, if_true, hc]
  refine ⟨c, hc, hmain, ?_⟩
  intro res hres r
  rw [hmain] at hres
  have hres' := Option.some_injective _ hres
  rw [← hres', List.mem_filter, decide_eq_true_eq]

/-- Witness for C7: the 5-row dataset, filtering `frp > 0` first and
then the 50th percentile of `frp` over the filtered rows. -/
theorem value_filter_before_percentile_witness :
    filter_func .above (fun r => r.frp) 0 fiveRowDf ≠ [] ∧
      ∃ c, npPercentile ((filter_func .above (fun r => r.frp) 0 fiveRowDf).map
          fun r => r.2.frp) 50 = some c ∧
        mainFilterStage true .above (fun r => r.frp) 0 true (fun r => r.frp) 50 fiveRowDf =
          some ((filter_func .above (fun r => r.frp) 0 fiveRowDf).filter
            fun r => decide (c < r.2.frp)) ∧
        ∀ res, mainFilterStage true .above (fun r => r.frp) 0 true (fun r => r.frp) 50
            fiveRowDf = some res →
          ∀ r, r ∈ res ↔ r ∈ filter_func .above (fun r => r.frp) 0 fiveRowDf ∧ c < r.2.frp := by
  exact ⟨by decide,
    value_filter_before_percentile .above (fun r => r.frp) (fun r => r.frp) 0 50 fiveRowDf
      (by decide) ⟨by norm_num, by norm_num⟩⟩

end NasaFire
